/-
  Verification of the job-lifecycle / progress-tracking layer of the
  youtube-downloader-backend service.

  Shallow embedding notes.
  * The service keeps one in-memory registry mapping a job id to a mutable
    progress record (a Python dict).  We model the registry as an association
    list `List (String × JobRec)` and a record as a fixed-field structure
    holding every key the code ever writes.
  * Byte counts, speeds and timestamps are modelled as `Nat`/`Int`; the
    percentage computation `(downloaded / total) * 100` is carried out as an
    exact fraction of naturals, and Python's `f"{x:.1f}"` rendering is
    modelled by rounding to the nearest tenth with ties to even (`rheN`),
    which is the rounding rule CPython's `format` applies.
  * Fallible code paths (Python `KeyError`) are modelled with `Except String`.
  * `os.path.splitext` is embedded following CPython's `posixpath`/
    `genericpath._splitext` (separator `/`, extension separator `.`,
    leading dots of a basename never start an extension); the service is a
    Linux deployment, so posix path rules apply.
-/
import Mathlib

/-- Round the nonnegative fraction `n / d` (with `d > 0`) to the nearest
natural number, ties to even.  This is the rounding CPython's string
formatting applies when rendering `%.1f` / `%.2f`; the service only ever
formats nonnegative ratios of byte counts, so `Nat` suffices. -/
def rheN (n d : Nat) : Nat :=
  if 2 * (n % d) < d then n / d
  else if d < 2 * (n % d) then n / d + 1
  else if n / d % 2 = 0 then n / d else n / d + 1

/-- Render the fraction `n / d` with one decimal digit, as Python's
`f"{x:.1f}"` does for the nonnegative values the service produces. -/
def pyFormat1f (n d : Nat) : String :=
  let t := rheN (n * 10) d
  toString (t / 10) ++ "." ++ toString (t % 10)

/-- Render the fraction `n / d` with two decimal digits, as Python's
`f"{x:.2f}"` does for the nonnegative values the service produces. -/
def pyFormat2f (n d : Nat) : String :=
  let c := rheN (n * 100) d
  toString (c / 100) ++ "." ++
    (if c % 100 < 10 then "0" ++ toString (c % 100) else toString (c % 100))

/-- ASCII lower-casing of one character; the extensions the code lower-cases
(`.mp3`, `.MP4`, `.webm`, …) are ASCII, where Python's `str.lower` agrees. -/
def asciiLowerChar (c : Char) : Char :=
  if 'A' ≤ c ∧ c ≤ 'Z' then Char.ofNat (c.toNat + 32) else c

/-- ASCII lower-casing of a string (embeds `str.lower` on ASCII input). -/
def asciiLower (s : String) : String :=
  String.mk (s.data.map asciiLowerChar)

/-- Python `str.rfind` on one character: index of the last occurrence,
`-1` when the character does not occur. -/
def rfindIdx (c : Char) : List Char → Int
  | [] => -1
  | a :: rest =>
    let r := rfindIdx c rest
    if 0 ≤ r then r + 1
    else if a = c then 0 else -1

/-- The scan of `genericpath._splitext`: is there a character other than
`.` at an index `i` with `start ≤ i < dot`?  (CPython walks the basename
and refuses to split when everything before the final dot is dots.) -/
def anyNonDotIn (l : List Char) (start dot : Nat) : Bool :=
  ((l.drop start).take (dot - start)).any (fun c => c ≠ '.')

/-- Embedding of `posixpath.splitext` over character lists: split at the last
dot when it lies after the last `/` and the basename is not all dots. -/
def pySplitext (l : List Char) : List Char × List Char :=
  if rfindIdx '/' l < rfindIdx '.' l then
    if anyNonDotIn l (rfindIdx '/' l + 1).toNat (rfindIdx '.' l).toNat then
      (l.take (rfindIdx '.' l).toNat, l.drop (rfindIdx '.' l).toNat)
    else (l, [])
  else (l, [])

/-- Extension part of `os.path.splitext` on a string. -/
def strExt (s : String) : String :=
  String.mk (pySplitext s.data).2

/-- Stem (name) part of `os.path.splitext` on a string. -/
def strStem (s : String) : String :=
  String.mk (pySplitext s.data).1

/-- The characters `utils.sanitize_filename` replaces, in source order. -/
def illegalChars : List Char :=
  ['/', '\\', ':', '*', '?', '"', '<', '>', '|']

/-- One pass of `filename.replace(char, '_')`. -/
def replOne (c : Char) (l : List Char) : List Char :=
  l.map (fun ch => if ch = c then '_' else ch)

/-- The replacement loop of `sanitize_filename`: every illegal character is
replaced by `_`, one character class at a time. -/
def replaceIllegal (l : List Char) : List Char :=
  illegalChars.foldl (fun acc c => replOne c acc) l

/-- Embedding of `utils.sanitize_filename` over character lists: replace the
illegal characters, then if the result is longer than 200 characters keep
the first 200 characters of the stem and the whole extension. -/
def sanitizeChars (l : List Char) : List Char :=
  if 200 < (replaceIllegal l).length then
    (pySplitext (replaceIllegal l)).1.take 200 ++ (pySplitext (replaceIllegal l)).2
  else replaceIllegal l

/-- Embedding of `utils.sanitize_filename`. -/
def sanitize_filename (s : String) : String :=
  String.mk (sanitizeChars s.data)

/-- String form of the replacement step (used to phrase length bounds). -/
def replaceIllegalStr (s : String) : String :=
  String.mk (replaceIllegal s.data)

/-- The character class of the validator's regex `[a-zA-Z0-9_\-\.]`. -/
def classChar (c : Char) : Bool :=
  ('a' ≤ c ∧ c ≤ 'z') ∨ ('A' ≤ c ∧ c ≤ 'Z') ∨ ('0' ≤ c ∧ c ≤ '9') ∨
    c = '_' ∨ c = '-' ∨ c = '.'

/-- Length of the longest run of class characters at the head of the list
(what the greedy `[...]+` consumes). -/
def leadClassLen : List Char → Nat
  | [] => 0
  | c :: rest => if classChar c then leadClassLen rest + 1 else 0

/-- Is the last character a newline? -/
def lastIsNewline : List Char → Bool
  | [] => false
  | [c] => c = '\n'
  | _ :: c :: rest => lastIsNewline (c :: rest)

/-- Does the list contain two consecutive dots (Python `".." in s`)? -/
def hasDotDot : List Char → Bool
  | [] => false
  | [_] => false
  | a :: b :: rest => (a = '.' ∧ b = '.') || hasDotDot (b :: rest)

/-- Embedding of `bool(re.match(r'^[a-zA-Z0-9_\-\.]+$', s))`.  Python's `$`
(without `re.MULTILINE`) matches at the end of the string or just before a
single trailing newline, so the regex accepts a class run covering either
the whole string or the whole string but a final newline.  Because `\n` is
not a class character, the greedy run length `leadClassLen` is the only
candidate match length. -/
def reFullMatch (l : List Char) : Bool :=
  let m := leadClassLen l
  decide (1 ≤ m) &&
    (decide (m = l.length) || (decide (m + 1 = l.length) && lastIsNewline l))

/-- Embedding of `utils.is_safe_filename`: reject `..`, `/`, `\`, then match
the whole-string character-class regex. -/
def is_safe_filename (s : String) : Bool :=
  if hasDotDot s.data || s.data.contains '/' || s.data.contains '\\' then false
  else reFullMatch s.data

/-- Claim-side predicate: the entire string is one or more characters of
the class `[A-Za-z0-9_.-]` (the spec's reading of the validator regex). -/
def fullClassOnly (l : List Char) : Bool :=
  !l.isEmpty && l.all classChar

/-- The claim's stated acceptance condition for `is_safe_filename`: no
`..`, no `/`, no `\`, and the entire string matches the class. -/
def safeSpecClaim (l : List Char) : Bool :=
  !hasDotDot l && !l.contains '/' && !l.contains '\\' && fullClassOnly l

/-- The amended acceptance condition: as the claim states it, except that a
single trailing newline after a nonempty class run is also accepted,
because Python's `$` (without `re.MULTILINE`) matches just before a final
newline. -/
def safeSpecAmended (l : List Char) : Bool :=
  !hasDotDot l && !l.contains '/' && !l.contains '\\' &&
    (fullClassOnly l || (lastIsNewline l && fullClassOnly l.dropLast))

/-- The `file` sub-dictionary written into a job record at completion. -/
structure FileInfo where
  name : String
  path : String
  size : String
  url : String
deriving DecidableEq

/-- One job's progress record.  The Python code stores a dict; this structure
has a field for every key the code ever writes (missing numeric keys are
modelled as `0`, missing strings as `""`, the absent `file` as `none`). -/
structure JobRec where
  status : String
  percent : String
  message : String
  language : String
  downloaded : Nat
  total : Nat
  speed : Nat
  eta : Nat
  filename : String
  file : Option FileInfo
deriving DecidableEq

/-- Dictionary lookup in the registry (`download_progress` /
`self.progress_data`), modelled as an association list. -/
def lookupReg : List (String × JobRec) → String → Option JobRec
  | [], _ => none
  | (k, v) :: rest, id => if k = id then some v else lookupReg rest id

/-- Dictionary store: replace the record when the id is present, append a new
entry otherwise (Python `dict[key] = value` / `dict[key].update`). -/
def setReg : List (String × JobRec) → String → JobRec → List (String × JobRec)
  | [], id, v => [(id, v)]
  | (k, w) :: rest, id, v =>
    if k = id then (k, v) :: rest else (k, w) :: setReg rest id v

/-- The record inserted at job creation: status `starting`, percent `0%`,
localized preparing message. -/
def startingRec (language : String) : JobRec :=
  { status := "starting"
    percent := "0%"
    message := if language = "zh" then "准备下载..." else "Preparing download..."
    language := language
    downloaded := 0
    total := 0
    speed := 0
    eta := 0
    filename := ""
    file := none }

/-- A progress callback payload from the external tool (the dict `d` that
yt-dlp passes to a progress hook).  `download_id` models
`d.get('info_dict', {}).get('__download_id')`; absent numeric keys are
`none`. -/
structure Payload where
  download_id : Option String
  status : String
  total_bytes : Option Nat
  total_bytes_estimate : Option Nat
  downloaded_bytes : Option Nat
  speed : Option Nat
  eta : Option Nat
  filename : Option String
  error : Option String
deriving DecidableEq

/-- The id a payload carries, after Python truthiness: `None` and the empty
string both fail `if not download_id`. -/
def payloadId (d : Payload) : Option String :=
  match d.download_id with
  | none => none
  | some s => if s = "" then none else some s

/-- The total the hooks use: `d.get('total_bytes') or
d.get('total_bytes_estimate', 0)` — the estimate is consulted whenever
`total_bytes` is absent or zero. -/
def computedTotal (d : Payload) : Nat :=
  let t := d.total_bytes.getD 0
  if t = 0 then d.total_bytes_estimate.getD 0 else t

/-- The field merge a `downloading` callback performs on an existing record
(with a positive total): recompute the percent string to one decimal and
refresh the numeric fields from the payload. -/
def downloadingRec (rec : JobRec) (d : Payload) : JobRec :=
  { rec with
    status := "downloading"
    percent := pyFormat1f (d.downloaded_bytes.getD 0 * 100) (computedTotal d) ++ "%"
    downloaded := d.downloaded_bytes.getD 0
    total := computedTotal d
    speed := d.speed.getD 0
    eta := d.eta.getD 0
    filename := d.filename.getD "" }

/-- The field merge a `finished` callback performs on an existing record. -/
def finishedRec (rec : JobRec) : JobRec :=
  { rec with
    status := "processing"
    percent := "100%"
    message := if rec.language = "zh" then "处理中..." else "Processing..." }

/-- The field merge an `error` callback performs on an existing record. -/
def errorRecOf (rec : JobRec) (d : Payload) : JobRec :=
  { rec with
    status := "error"
    message :=
      d.error.getD (if rec.language = "zh" then "下载出错" else "Download error") }

namespace Downloader

/-- Embedding of `VideoDownloader.progress_hook` (src/download.py).  The id
is looked up first; a callback whose id is missing from
`self.progress_data` returns without touching anything. -/
def progress_hook (reg : List (String × JobRec)) (d : Payload) :
    List (String × JobRec) :=
  match payloadId d with
  | none => reg
  | some id =>
    match lookupReg reg id with
    | none => reg
    | some rec =>
      if d.status = "downloading" then
        if 0 < computedTotal d then setReg reg id (downloadingRec rec d) else reg
      else if d.status = "finished" then setReg reg id (finishedRec rec)
      else if d.status = "error" then setReg reg id (errorRecOf rec d)
      else reg

/-- Embedding of the entry phase of `VideoDownloader.download_video`
(src/download.py): insert the `starting` record, then gate on the format —
an `mp3` request with ffmpeg unavailable is marked `error` by this very
background task and processing stops (`proceed = false`). -/
def download_video_start (reg : List (String × JobRec)) (id fmt language : String)
    (ffmpegAvailable : Bool) : List (String × JobRec) × Bool :=
  let reg1 := setReg reg id (startingRec language)
  if fmt = "mp3" then
    if ffmpegAvailable then (reg1, true)
    else
      (setReg reg1 id
        { startingRec language with
          status := "error"
          message :=
            if language = "en" then "FFmpeg not installed. Cannot convert to MP3."
            else "未安装FFmpeg，无法转换为MP3格式" },
        false)
  else (reg1, true)

end Downloader

namespace MainApp

/-- Embedding of the module-level `progress_hook` (src/main.py).  Unlike the
`VideoDownloader` version it never checks that the id is present, so any
branch that touches `download_progress[download_id]` raises `KeyError` for
an unknown id; branches that do not touch the registry fall through
silently. -/
def progress_hook (reg : List (String × JobRec)) (d : Payload) :
    Except String (List (String × JobRec)) :=
  match payloadId d with
  | none => Except.ok reg
  | some id =>
    if d.status = "downloading" then
      if 0 < computedTotal d then
        match lookupReg reg id with
        | none => Except.error ("KeyError: " ++ id)
        | some rec => Except.ok (setReg reg id (downloadingRec rec d))
      else Except.ok reg
    else if d.status = "finished" then
      match lookupReg reg id with
      | none => Except.error ("KeyError: " ++ id)
      | some rec => Except.ok (setReg reg id (finishedRec rec))
    else if d.status = "error" then
      match lookupReg reg id with
      | none => Except.error ("KeyError: " ++ id)
      | some rec => Except.ok (setReg reg id (errorRecOf rec d))
    else Except.ok reg

/-- Outcome of the synchronous `/api/download` handler. -/
inductive EndpointResult where
  | rejected : Nat → String → EndpointResult
  | accepted : String → EndpointResult
deriving DecidableEq

/-- Observable effects of the synchronous `/api/download` handler: its HTTP
result, the registry afterwards, and the background task it scheduled (id
and format), if any. -/
structure EndpointOut where
  result : EndpointResult
  reg : List (String × JobRec)
  task : Option (String × String)
deriving DecidableEq

/-- Embedding of the `download_video` request handler (src/main.py): reject
an empty URL; otherwise create the job record (language is fixed to "en"),
then — for mp3 — reject with 400 when ffmpeg is unavailable, without
scheduling any background task; in every other case schedule the
background download and return the id. -/
def download_endpoint (reg : List (String × JobRec)) (url fmt : String)
    (ffmpegAvailable : Bool) (newId : String) : EndpointOut :=
  if url = "" then
    { result := EndpointResult.rejected 400 "URL is required", reg := reg
      task := none }
  else
    let reg1 := setReg reg newId (startingRec "en")
    if fmt = "mp3" then
      if ffmpegAvailable then
        { result := EndpointResult.accepted newId, reg := reg1
          task := some (newId, fmt) }
      else
        { result :=
            EndpointResult.rejected 400 "FFmpeg not installed. Cannot convert to MP3."
          reg := reg1
          task := none }
    else
      { result := EndpointResult.accepted newId, reg := reg1
        task := some (newId, fmt) }

/-- The extension enforcement of the finalize step: keep the produced
extension only when it already lower-cases to the requested container. -/
def enforcedExt (fmt ext : String) : String :=
  if fmt = "mp3" ∧ asciiLower ext ≠ ".mp3" then ".mp3"
  else if fmt = "mp4" ∧ asciiLower ext ≠ ".mp4" then ".mp4"
  else ext

/-- The final file name the finalize step builds:
`f"{timestamp}_{file_name}{file_ext}"`, where `file_name`/`file_ext` come
from `os.path.splitext(downloaded_file)` — the name of the file the tool
produced, not the video title. -/
def finalNameCode (ts : Nat) (downloadedFile fmt : String) : String :=
  toString ts ++ "_" ++ strStem downloadedFile ++
    enforcedExt fmt (strExt downloadedFile)

/-- The record written on the path into `completed`. -/
def completedRec (rec : JobRec) (ts : Nat) (downloadedFile fmt dlDir : String)
    (fileSize : Nat) : JobRec :=
  { rec with
    status := "completed"
    percent := "100%"
    message := if rec.language = "zh" then "下载完成" else "Download complete"
    file := some
      { name := finalNameCode ts downloadedFile fmt
        path := dlDir ++ "/" ++ finalNameCode ts downloadedFile fmt
        size := pyFormat2f fileSize (1024 * 1024) ++ " MB"
        url := "/api/download/" ++ finalNameCode ts downloadedFile fmt } }

/-- Observable effects of the finalize phase: the registry afterwards and
the move performed into the shared download directory (source file name in
the temp directory, final file name), if any. -/
structure FinalizeOut where
  reg : List (String × JobRec)
  moved : Option (String × String)
deriving DecidableEq

/-- Embedding of the tail of `download_in_background` (src/main.py, after
`ydl.download` returned successfully; `VideoDownloader.download_video` in
src/download.py is line-for-line the same logic): list the per-job temp
directory; if it is empty, mark the job `error` with the "no file found"
message and move nothing; otherwise take the first file, build the
timestamped final name with the enforced extension, move the file into the
shared directory and mark the job `completed`.  `files` is the `listdir`
result, `fileSize` the size `os.path.getsize` reports for the moved file.
An id missing from the registry would raise `KeyError` in Python. -/
def finalize (reg : List (String × JobRec)) (id : String) (files : List String)
    (fmt : String) (ts : Nat) (dlDir : String) (fileSize : Nat) :
    Except String FinalizeOut :=
  match lookupReg reg id with
  | none => Except.error ("KeyError: " ++ id)
  | some rec =>
    match files with
    | [] =>
      Except.ok
        { reg := setReg reg id
            { rec with
              status := "error"
              message :=
                if rec.language = "zh" then "下载完成但未找到文件"
                else "Download completed but no file found" }
          moved := none }
    | f :: _ =>
      Except.ok
        { reg := setReg reg id (completedRec rec ts f fmt dlDir fileSize)
          moved := some (f, finalNameCode ts f fmt) }

/-- Projection used to state facts about a finalize result that may have
raised: the move it performed, `none` on the error path. -/
def finalizeMoved (x : Except String FinalizeOut) : Option (String × String) :=
  match x with
  | Except.ok o => o.moved
  | Except.error _ => none

/-- Projection: the status of job `id` after a finalize result. -/
def finalizeStatus (x : Except String FinalizeOut) (id : String) : Option String :=
  match x with
  | Except.ok o => (lookupReg o.reg id).map JobRec.status
  | Except.error _ => none

end MainApp

/-- One directory entry as `clean_old_files` observes it: its name, whether
`os.path.isfile` holds (directories and other non-regular entries report
`false`), and its modification time in seconds. -/
structure FsEntry where
  name : String
  isFile : Bool
  mtime : Int
deriving DecidableEq

/-- The deletion test of `utils.clean_old_files`: a regular file whose age
`current_time - mtime` strictly exceeds `max_age_minutes * 60` seconds. -/
def ageExceeds (now maxAgeMinutes : Int) (e : FsEntry) : Bool :=
  e.isFile && decide (maxAgeMinutes * 60 < now - e.mtime)

/-- The listing loop of `utils.clean_old_files` over the directory entries in
listing order: returns the entries that remain and the deleted names in
deletion order.  (Per-file `os.remove` is modelled as succeeding; the claim
describes the behavior when deletions succeed.) -/
def cleanSweep : List FsEntry → Int → Int → List FsEntry × List String
  | [], _, _ => ([], [])
  | e :: rest, now, m =>
    let r := cleanSweep rest now m
    if ageExceeds now m e then (r.1, e.name :: r.2) else (e :: r.1, r.2)

/-- Embedding of `utils.clean_old_files`: a missing (or non-directory) path
yields no deletions and an empty result; otherwise sweep the listing. -/
def clean_old_files (dir : Option (List FsEntry)) (now maxAgeMinutes : Int) :
    Option (List FsEntry) × List String :=
  match dir with
  | none => (none, [])
  | some es =>
    let r := cleanSweep es now maxAgeMinutes
    (some r.1, r.2)

/-! ### Concrete instances used by witnesses and counterexamples -/

/-- A `finished` callback carrying an id that was never created. -/
def c1Pay : Payload :=
  { download_id := some ("x"), status := "finished", total_bytes := none
    total_bytes_estimate := none, downloaded_bytes := none, speed := none
    eta := none, filename := none, error := none }

/-- A `downloading` callback for job `w` (60 of 80 bytes). -/
def c1WitPay : Payload :=
  { download_id := some ("w"), status := "downloading", total_bytes := some 80
    total_bytes_estimate := none, downloaded_bytes := some 60, speed := none
    eta := none, filename := none, error := none }

/-- The registry holding exactly the fresh job `j` (language "en"). -/
def c2Reg : List (String × JobRec) := [("j", startingRec ("en"))]

/-- The spec's example callback: `downloaded=50, total=100`. -/
def c2Pay : Payload :=
  { download_id := some ("j"), status := "downloading", total_bytes := some 100
    total_bytes_estimate := none, downloaded_bytes := some 50, speed := some 7
    eta := some 3, filename := some ("f.mp4"), error := none }

/-- The registry holding exactly the fresh job `k` (language "en"). -/
def c3Reg : List (String × JobRec) := [("k", startingRec ("en"))]

/-- The registry holding exactly the fresh job `n` (language "en"). -/
def c6Reg : List (String × JobRec) := [("n", startingRec ("en"))]

/-- First callback of the C6 counterexample: 50 of 100 bytes. -/
def c6PayA : Payload :=
  { download_id := some ("n"), status := "downloading", total_bytes := some 100
    total_bytes_estimate := none, downloaded_bytes := some 50, speed := none
    eta := none, filename := none, error := none }

/-- Second callback of the C6 counterexample: the tool reports 30 of 100
bytes — a smaller fraction than the previous callback. -/
def c6PayB : Payload :=
  { download_id := some ("n"), status := "downloading", total_bytes := some 100
    total_bytes_estimate := none, downloaded_bytes := some 30, speed := none
    eta := none, filename := none, error := none }

/-- The registry holding exactly the fresh job `m` (language "en"). -/
def c6WitReg : List (String × JobRec) := [("m", startingRec ("en"))]

/-- First callback of the C6 witness: 30 of 100 bytes. -/
def c6WitPay1 : Payload :=
  { download_id := some ("m"), status := "downloading", total_bytes := some 100
    total_bytes_estimate := none, downloaded_bytes := some 30, speed := none
    eta := none, filename := none, error := none }

/-- Second callback of the C6 witness: 50 of 100 bytes. -/
def c6WitPay2 : Payload :=
  { download_id := some ("m"), status := "downloading", total_bytes := some 100
    total_bytes_estimate := none, downloaded_bytes := some 50, speed := none
    eta := none, filename := none, error := none }

/-- Final-name construction as the spec's words describe it (refinement
comparator for C4): prefix, then the repository-sanitized original title,
then the enforced extension of the requested format. -/
def specFinalName (ts : Nat) (title fmt : String) : String :=
  toString ts ++ "_" ++ sanitize_filename title ++
    (if fmt = "mp3" then ".mp3" else ".mp4")

/-- The registry holding exactly the fresh job `v` (language "en"). -/
def c4Reg : List (String × JobRec) := [("v", startingRec ("en"))]

/-- The registry holding exactly the fresh job `u` (language "en"). -/
def c4WitReg : List (String × JobRec) := [("u", startingRec ("en"))]

/-- The C8 counterexample input: 200 `A`s, then `.xyz/q`.  Its
`os.path.splitext` extension is empty (the last dot lies before the last
`/`), but after the `/` is replaced by `_` the sanitizer sees the
extension `.xyz_q` and preserves it past the 200-character cap. -/
def c8Input : String :=
  String.mk (List.replicate 200 ('A') ++ ([ '.', 'x', 'y', 'z', '/', 'q' ]))

/-! ### Helper lemmas -/

theorem not_mem_replOne_self (c : Char) (hc : c ≠ '_') (l : List Char) :
    c ∉ replOne c l := by
  intro hmem
  rw [replOne, List.mem_map] at hmem
  obtain ⟨y, _, hy⟩ := hmem
  by_cases h : y = c
  · rw [if_pos h] at hy; exact hc hy.symm
  · rw [if_neg h] at hy; exact h hy

theorem not_mem_replOne (x c : Char) (l : List Char) (hx : x ∉ l)
    (hu : x ≠ '_') : x ∉ replOne c l := by
  intro hmem
  rw [replOne, List.mem_map] at hmem
  obtain ⟨y, hyl, hy⟩ := hmem
  by_cases h : y = c
  · rw [if_pos h] at hy; exact hu hy.symm
  · rw [if_neg h] at hy; exact hx (hy ▸ hyl)

theorem not_mem_foldl_repl (cs : List Char) (l : List Char) (x : Char)
    (hx : x ∉ l) (hu : x ≠ '_') :
    x ∉ cs.foldl (fun acc c => replOne c acc) l := by
  induction cs generalizing l with
  | nil => exact hx
  | cons c cs ih => exact ih (replOne c l) (not_mem_replOne x c l hx hu)

theorem fold_removes (cs : List Char) (l : List Char) (x : Char) (hx : x ∈ cs)
    (hu : x ≠ '_') : x ∉ cs.foldl (fun acc c => replOne c acc) l := by
  induction cs generalizing l with
  | nil => cases hx
  | cons c cs ih =>
    rcases List.mem_cons.mp hx with rfl | hx2
    · by_cases hmem : x ∈ cs
      · exact ih (replOne x l) hmem
      · exact not_mem_foldl_repl cs (replOne x l) x
          (not_mem_replOne_self x hu l) hu
    · exact ih (replOne c l) hx2

theorem not_mem_replaceIllegal (x : Char) (hx : x ∈ illegalChars)
    (l : List Char) : x ∉ replaceIllegal l := by
  have hu : x ≠ '_' := by
    simp [illegalChars] at hx
    rcases hx with rfl | rfl | rfl | rfl | rfl | rfl | rfl | rfl | rfl <;> decide
  exact fold_removes illegalChars l x hx hu

theorem pySplitext_fst_subset (l : List Char) : (pySplitext l).1 ⊆ l := by
  unfold pySplitext
  split_ifs <;> simp [List.take_subset]

theorem pySplitext_snd_subset (l : List Char) : (pySplitext l).2 ⊆ l := by
  unfold pySplitext
  split_ifs <;> simp [List.drop_subset]

theorem sanitizeChars_subset (l : List Char) :
    ∀ x ∈ sanitizeChars l, x ∈ replaceIllegal l := by
  unfold sanitizeChars
  split_ifs with h
  · intro x hx
    rcases List.mem_append.mp hx with h1 | h2
    · exact pySplitext_fst_subset _ (List.take_subset 200 _ h1)
    · exact pySplitext_snd_subset _ h2
  · intro x hx
    exact hx

theorem leadClassLen_le (l : List Char) : leadClassLen l ≤ l.length := by
  induction l with
  | nil => simp [leadClassLen]
  | cons c rest ih =>
    cases hc : classChar c with
    | true =>
      simp [leadClassLen, hc]
      omega
    | false => simp [leadClassLen, hc]

theorem leadClassLen_eq_length (l : List Char) :
    (leadClassLen l = l.length) ↔ l.all classChar = true := by
  induction l with
  | nil => simp [leadClassLen]
  | cons c rest ih =>
    cases hc : classChar c with
    | true => simpa [leadClassLen, hc] using ih
    | false => simp [leadClassLen, hc]

theorem leadClassLen_append_single (g : List Char) (c : Char) :
    leadClassLen (g ++ [c])
      = if g.all classChar then g.length + (if classChar c then 1 else 0)
        else leadClassLen g := by
  induction g with
  | nil => simp [leadClassLen]
  | cons a g ih =>
    cases ha : classChar a with
    | true =>
      simp [leadClassLen, ha, ih]
      split_ifs <;> omega
    | false => simp [leadClassLen, ha]

theorem lastIsNewline_append_single (g : List Char) (c : Char) :
    lastIsNewline (g ++ [c]) = decide (c = '\n') := by
  induction g with
  | nil => simp [lastIsNewline]
  | cons a g ih =>
    cases g with
    | nil => simp [lastIsNewline]
    | cons b g' => simpa [lastIsNewline] using ih

theorem reFullMatch_eq (l : List Char) :
    reFullMatch l
      = (fullClassOnly l || (lastIsNewline l && fullClassOnly l.dropLast)) := by
  rcases List.eq_nil_or_concat l with rfl | ⟨g, c, rfl⟩
  · rfl
  · rw [List.concat_eq_append]
    have hdrop : (g ++ [c]).dropLast = g := by simp
    rw [reFullMatch, leadClassLen_append_single, lastIsNewline_append_single,
      hdrop]
    cases hg : g.all classChar with
    | true =>
      cases hc : classChar c with
      | true =>
        have hcn : ¬ (c = '\n') := by
          intro h
          rw [h] at hc
          exact absurd hc (by decide)
        simp [fullClassOnly, hg, hc, hcn]
      | false =>
        simp [fullClassOnly, hg, hc]
        cases g with
        | nil => simp
        | cons x xs => simp
    | false =>
      have hne : leadClassLen g ≠ g.length := by
        intro h
        rw [leadClassLen_eq_length] at h
        rw [h] at hg
        cases hg
      have hlt : leadClassLen g < g.length :=
        Nat.lt_of_le_of_ne (leadClassLen_le g) hne
      simp [fullClassOnly, hg]
      omega

theorem rheN_bounds (n d : Nat) : n / d ≤ rheN n d ∧ rheN n d ≤ n / d + 1 := by
  unfold rheN
  generalize n / d = q
  generalize n % d = r
  split_ifs <;> omega

theorem rheN_mono (n1 n2 d : Nat) (h : n1 ≤ n2) : rheN n1 d ≤ rheN n2 d := by
  have hq : n1 / d ≤ n2 / d := Nat.div_le_div_right h
  rcases Nat.eq_or_lt_of_le hq with he | hlt
  · have hr : n1 % d ≤ n2 % d := by
      have e1 := Nat.mod_add_div n1 d
      have e2 := Nat.mod_add_div n2 d
      rw [he] at e1
      have h' : n1 % d + d * (n2 / d) ≤ n2 % d + d * (n2 / d) := by
        rw [e1, e2]; exact h
      exact Nat.le_of_add_le_add_right h'
    unfold rheN
    rw [he]
    set q := n2 / d
    set r1 := n1 % d
    set r2 := n2 % d
    split_ifs <;> omega
  · have b1 := rheN_bounds n1 d
    have b2 := rheN_bounds n2 d
    omega

theorem enforcedExt_lower (fmt ext : String) (hfmt : fmt = "mp3" ∨ fmt = "mp4") :
    asciiLower (MainApp.enforcedExt fmt ext)
      = (if fmt = "mp3" then ".mp3" else ".mp4") := by
  rcases hfmt with rfl | rfl
  · by_cases he : asciiLower ext = ".mp3"
    · simp [MainApp.enforcedExt, he]
    · simp [MainApp.enforcedExt, he]
      decide
  · by_cases he : asciiLower ext = ".mp4"
    · simp [MainApp.enforcedExt, he]
    · simp [MainApp.enforcedExt, he]
      decide

theorem progress_hook_downloading (reg : List (String × JobRec)) (id : String)
    (rec : JobRec) (d : Payload) (hid : payloadId d = some id)
    (hrec : lookupReg reg id = some rec) (hst : d.status = "downloading")
    (ht : 0 < computedTotal d) :
    Downloader.progress_hook reg d = setReg reg id (downloadingRec rec d) := by
  simp [Downloader.progress_hook, hid, hrec, hst, ht]

theorem lookupReg_setReg_self (reg : List (String × JobRec)) (id : String)
    (v : JobRec) : lookupReg (setReg reg id v) id = some v := by
  induction reg with
  | nil => simp [setReg, lookupReg]
  | cons hd tl ih =>
    obtain ⟨k, w⟩ := hd
    by_cases hk : k = id
    · simp [setReg, lookupReg, hk]
    · simp [setReg, lookupReg, hk, ih]

theorem cleanSweep_keep (es : List FsEntry) (now m : Int) :
    (cleanSweep es now m).1 = es.filter (fun e => !ageExceeds now m e) := by
  induction es with
  | nil => rfl
  | cons e rest ih =>
    by_cases h : ageExceeds now m e
    · simp [cleanSweep, List.filter, h, ih]
    · simp [cleanSweep, List.filter, h, ih]

theorem cleanSweep_deleted (es : List FsEntry) (now m : Int) :
    (cleanSweep es now m).2 = (es.filter (ageExceeds now m)).map FsEntry.name := by
  induction es with
  | nil => rfl
  | cons e rest ih =>
    by_cases h : ageExceeds now m e
    · simp [cleanSweep, List.filter, h, ih]
    · simp [cleanSweep, List.filter, h, ih]

theorem cleanSweep_of_none_exceeds (es : List FsEntry) (now m : Int)
    (h : ∀ e ∈ es, ageExceeds now m e = false) :
    cleanSweep es now m = (es, []) := by
  induction es with
  | nil => rfl
  | cons e rest ih =>
    have he := h e (List.mem_cons_self e rest)
    have hr := ih (fun x hx => h x (List.mem_cons_of_mem e hx))
    simp [cleanSweep, he, hr]

/-! ### Claims -/

/-- C1 counterexample.  The claim says a progress update for an id absent
from the registry is a no-op that raises no exception.  The module-level
`progress_hook` of src/main.py never checks membership: with an empty
registry, a `finished` callback for id `x` evaluates
`download_progress['x'].update(...)` and raises `KeyError` instead of
returning. -/
theorem c1_counterexample :
    MainApp.progress_hook ([]) c1Pay = Except.error ("KeyError: x") := rfl

/-- C1 amended: the defensive no-op holds for the
`VideoDownloader.progress_hook` of src/download.py, which returns without
touching the registry whenever the payload's id is not a key of
`self.progress_data`; the module-level hook of src/main.py instead raises
`KeyError` whenever a callback for an unknown id reaches a
registry-updating branch. -/
theorem c1_amended (reg : List (String × JobRec)) (d : Payload) (id : String)
    (hid : payloadId d = some id) (habsent : lookupReg reg id = none) :
    Downloader.progress_hook reg d = reg := by
  simp [Downloader.progress_hook, hid, habsent]

/-- C1 witness: the amended no-op at a concrete unknown id. -/
theorem c1_amended_witness :
    payloadId c1WitPay = some ("w") ∧ lookupReg ([]) ("w") = none ∧
      Downloader.progress_hook ([]) c1WitPay = [] :=
  ⟨rfl, rfl, c1_amended ([]) c1WitPay ("w") rfl rfl⟩

/-- C7: `clean_old_files` on a missing directory deletes nothing; on a
directory it removes exactly the regular files whose age strictly exceeds
`max_age_minutes * 60` seconds (directories and younger files survive,
in order), returns exactly the names of the removed files in listing
order, and a second sweep of the resulting directory at the same instant
deletes nothing and returns the empty list. -/
theorem c7_clean_old_files (es : List FsEntry) (now m : Int) :
    clean_old_files none now m = (none, []) ∧
      (clean_old_files (some es) now m).1
        = some (es.filter (fun e => !ageExceeds now m e)) ∧
      (clean_old_files (some es) now m).2
        = (es.filter (ageExceeds now m)).map FsEntry.name ∧
      clean_old_files (some (es.filter (fun e => !ageExceeds now m e))) now m
        = (some (es.filter (fun e => !ageExceeds now m e)), []) := by
  refine ⟨rfl, ?_, ?_, ?_⟩
  · simp [clean_old_files, cleanSweep_keep]
  · simp [clean_old_files, cleanSweep_deleted]
  · have h : ∀ e ∈ es.filter (fun e => !ageExceeds now m e),
        ageExceeds now m e = false := by
      intro e he
      have := List.of_mem_filter he
      simpa using this
    simp [clean_old_files, cleanSweep_of_none_exceeds _ now m h]

/-- C2: for a job whose record exists, a `downloading` callback with a
positive total (taking `total_bytes`, falling back to the estimate) moves
the record to status `downloading`, renders its percent as
`downloaded / total × 100` to one decimal with a trailing `%`, and
refreshes the numeric fields — in both the `VideoDownloader` hook and the
module-level hook of src/main.py; when the computed total is zero (total
and estimate absent or zero) the callback leaves the registry, and hence
the record and its percent, entirely unchanged. -/
theorem c2_downloading_update (reg : List (String × JobRec)) (id : String)
    (rec : JobRec) (d : Payload) (hid : payloadId d = some id)
    (hrec : lookupReg reg id = some rec) (hst : d.status = "downloading") :
    (0 < computedTotal d →
      lookupReg (Downloader.progress_hook reg d) id = some (downloadingRec rec d) ∧
      MainApp.progress_hook reg d
        = Except.ok (setReg reg id (downloadingRec rec d)) ∧
      (downloadingRec rec d).status = "downloading" ∧
      (downloadingRec rec d).percent
        = pyFormat1f (d.downloaded_bytes.getD 0 * 100) (computedTotal d) ++ "%") ∧
    (computedTotal d = 0 →
      Downloader.progress_hook reg d = reg ∧
      MainApp.progress_hook reg d = Except.ok reg) := by
  constructor
  · intro ht
    refine ⟨?_, ?_, rfl, rfl⟩
    · rw [progress_hook_downloading reg id rec d hid hrec hst ht]
      exact lookupReg_setReg_self reg id _
    · simp [MainApp.progress_hook, hid, hrec, hst, ht]
  · intro ht
    constructor
    · simp [Downloader.progress_hook, hid, hrec, hst, ht]
    · simp [MainApp.progress_hook, hid, hst, ht]

/-- C2 witness: the spec's own example — `downloaded=50, total=100` on a
fresh job yields status `downloading` and percent `"50.0%"`. -/
theorem c2_downloading_update_witness :
    lookupReg (Downloader.progress_hook c2Reg c2Pay) ("j")
        = some (downloadingRec (startingRec ("en")) c2Pay) ∧
      (downloadingRec (startingRec ("en")) c2Pay).status = "downloading" ∧
      (downloadingRec (startingRec ("en")) c2Pay).percent = "50.0%" := by
  have h := c2_downloading_update c2Reg ("j") (startingRec ("en")) c2Pay rfl rfl rfl
  exact ⟨(h.1 (by decide)).1, by decide, by decide⟩

/-- C3: when the external tool's invocation returned successfully but the
per-job temp directory listing is empty, the job's record moves to the
terminal status `error` with the "no file found" message (localized), and
nothing is moved into the shared download directory. -/
theorem c3_no_file_error (reg : List (String × JobRec)) (id : String)
    (rec : JobRec) (fmt : String) (ts : Nat) (dlDir : String) (sz : Nat)
    (hrec : lookupReg reg id = some rec) :
    ∃ out, MainApp.finalize reg id ([]) fmt ts dlDir sz = Except.ok out ∧
      out.moved = none ∧
      lookupReg out.reg id = some
        { rec with
          status := "error"
          message :=
            if rec.language = "zh" then "下载完成但未找到文件"
            else "Download completed but no file found" } := by
  have h : MainApp.finalize reg id ([]) fmt ts dlDir sz = Except.ok
      { reg := setReg reg id
          { rec with
            status := "error"
            message :=
              if rec.language = "zh" then "下载完成但未找到文件"
              else "Download completed but no file found" }
        moved := none } := by
    simp [MainApp.finalize, hrec]
  exact ⟨_, h, rfl, lookupReg_setReg_self reg id _⟩

/-- C3 witness: the empty-listing error transition on a concrete job. -/
theorem c3_no_file_error_witness :
    ∃ out,
      MainApp.finalize c3Reg ("k") ([]) ("mp4") 1700000000 ("downloads") 0
          = Except.ok out ∧
        out.moved = none ∧
        lookupReg out.reg ("k") = some
          { startingRec ("en") with
            status := "error"
            message :=
              if (startingRec ("en")).language = "zh" then "下载完成但未找到文件"
              else "Download completed but no file found" } :=
  c3_no_file_error c3Reg ("k") (startingRec ("en")) ("mp4") 1700000000
    ("downloads") 0 rfl

/-- C4 counterexample.  The claim says every path into `completed` names the
output `prefix ++ sanitized original title ++ enforced extension`.  On the
single path into `completed` (the finalize phase), the middle part is the
stem of whatever file the tool left in the temp directory —
`download_in_background` fetches the title but never uses it, and
`sanitize_filename` is not applied.  Concretely: the job's title is
`a?b` (sanitized: `a_b`) but the tool produced `clip.webm`, so the moved
file is named `1700000000_clip.mp4`, not `1700000000_a_b.mp4` as the claim
requires. -/
theorem c4_counterexample :
    MainApp.finalizeMoved
        (MainApp.finalize c4Reg ("v") ([ "clip.webm" ]) ("mp4") 1700000000
          ("downloads") 5000000)
        = some ("clip.webm", "1700000000_clip.mp4") ∧
      MainApp.finalizeStatus
        (MainApp.finalize c4Reg ("v") ([ "clip.webm" ]) ("mp4") 1700000000
          ("downloads") 5000000) ("v")
        = some ("completed") ∧
      specFinalName 1700000000 ("a?b") ("mp4") = "1700000000_a_b.mp4" ∧
      ("1700000000_clip.mp4" : String) ≠ "1700000000_a_b.mp4" := by
  refine ⟨rfl, rfl, by decide, by decide⟩

/-- C4 amended: on the (only) path into `completed`, the moved file's final
name is the timestamp prefix, an underscore, the stem of the first file the
tool left in the per-job temp directory, and an extension enforced for the
requested format — the produced extension is kept only when it already
lower-cases to `.mp3` (resp. `.mp4`), otherwise it is rewritten, so the
final extension always lower-cases to the requested container.  The
repository's sanitizer and the original title play no part in the name. -/
theorem c4_amended (reg : List (String × JobRec)) (id : String) (rec : JobRec)
    (f : String) (rest : List String) (fmt : String) (ts : Nat) (dlDir : String)
    (sz : Nat) (hrec : lookupReg reg id = some rec)
    (hfmt : fmt = "mp3" ∨ fmt = "mp4") :
    ∃ out, MainApp.finalize reg id (f :: rest) fmt ts dlDir sz = Except.ok out ∧
      out.moved = some (f,
        toString ts ++ "_" ++ strStem f ++ MainApp.enforcedExt fmt (strExt f)) ∧
      asciiLower (MainApp.enforcedExt fmt (strExt f))
        = (if fmt = "mp3" then ".mp3" else ".mp4") ∧
      lookupReg out.reg id = some (MainApp.completedRec rec ts f fmt dlDir sz) ∧
      (MainApp.completedRec rec ts f fmt dlDir sz).status = "completed" := by
  have h : MainApp.finalize reg id (f :: rest) fmt ts dlDir sz = Except.ok
      { reg := setReg reg id (MainApp.completedRec rec ts f fmt dlDir sz)
        moved := some (f, MainApp.finalNameCode ts f fmt) } := by
    simp [MainApp.finalize, hrec]
  exact ⟨_, h, rfl, enforcedExt_lower fmt (strExt f) hfmt,
    lookupReg_setReg_self reg id _, rfl⟩

/-- C4 witness: the amended naming at a concrete completed job — the tool
produced `movie.webm`, the request was for mp4, and the moved file is
`99_movie.mp4`. -/
theorem c4_amended_witness :
    (∃ out,
      MainApp.finalize c4WitReg ("u") ([ "movie.webm" ]) ("mp4") 99
          ("downloads") 4242 = Except.ok out ∧
        out.moved = some ("movie.webm",
          toString 99 ++ "_" ++ strStem ("movie.webm") ++
            MainApp.enforcedExt ("mp4") (strExt ("movie.webm"))) ∧
        asciiLower (MainApp.enforcedExt ("mp4") (strExt ("movie.webm")))
          = (if ("mp4" : String) = "mp3" then ".mp3" else ".mp4") ∧
        lookupReg out.reg ("u") = some
          (MainApp.completedRec (startingRec ("en")) 99 ("movie.webm") ("mp4")
            ("downloads") 4242) ∧
        (MainApp.completedRec (startingRec ("en")) 99 ("movie.webm") ("mp4")
            ("downloads") 4242).status = "completed") ∧
      MainApp.finalNameCode 99 ("movie.webm") ("mp4") = "99_movie.mp4" :=
  ⟨c4_amended c4WitReg ("u") (startingRec ("en")) ("movie.webm") ([]) ("mp4")
      99 ("downloads") 4242 rfl (Or.inr rfl),
    by decide⟩

/-- C5 counterexample.  The claim says an audio request with ffmpeg absent
is never accepted as a background job that reaches `error` mid-job.  In the
src/download.py revision the ffmpeg gate sits inside
`VideoDownloader.download_video` — the async background task itself: an
mp3 job with ffmpeg unavailable is first recorded as `starting` and then
marked `error` with the ffmpeg message by that background task. -/
theorem c5_counterexample :
    (Downloader.download_video_start ([]) ("b") ("mp3") ("en") false).2 = false ∧
      (lookupReg (Downloader.download_video_start ([]) ("b") ("mp3") ("en")
            false).1 ("b")).map JobRec.status = some ("error") ∧
      (lookupReg (Downloader.download_video_start ([]) ("b") ("mp3") ("en")
            false).1 ("b")).map JobRec.message
        = some ("FFmpeg not installed. Cannot convert to MP3.") := by
  refine ⟨rfl, rfl, rfl⟩

/-- C5 amended: in the src/main.py service the fail-fast behavior holds —
when ffmpeg is unavailable, an mp3 request with a nonempty URL is rejected
synchronously with HTTP 400 and the message "FFmpeg not installed. Cannot
convert to MP3.", and no background task is scheduled (a `starting`
registry record does remain behind); in the src/download.py revision the
check instead runs inside the background task, which marks the job `error`
mid-job. -/
theorem c5_amended (reg : List (String × JobRec)) (url newId : String)
    (hurl : url ≠ "") :
    MainApp.download_endpoint reg url ("mp3") false newId =
      { result := MainApp.EndpointResult.rejected 400
          "FFmpeg not installed. Cannot convert to MP3."
        reg := setReg reg newId (startingRec ("en"))
        task := none } := by
  simp [MainApp.download_endpoint, hurl]

/-- C5 witness: the synchronous rejection at a concrete request. -/
theorem c5_amended_witness :
    ("http://example" : String) ≠ "" ∧
      MainApp.download_endpoint ([]) ("http://example") ("mp3") false ("b2") =
        { result := MainApp.EndpointResult.rejected 400
            "FFmpeg not installed. Cannot convert to MP3."
          reg := setReg ([]) ("b2") (startingRec ("en"))
          task := none } :=
  ⟨by decide, c5_amended ([]) ("http://example") ("b2") (by decide)⟩

/-- C6 counterexample.  The claim says the percent field is monotonic
non-decreasing across successive updates while `downloading`.  The hook
applies no clamping: it overwrites percent with whatever fraction the
latest payload reports.  Concretely, a callback reporting 50 of 100 bytes
followed by one reporting 30 of 100 bytes moves percent from `"50.0%"` to
`"30.0%"` — a strict decrease of the displayed value (302 < 502 tenths)
with the record in status `downloading` both times. -/
theorem c6_counterexample :
    (lookupReg (Downloader.progress_hook c6Reg c6PayA) ("n")).map JobRec.percent
        = some ("50.0%") ∧
      (lookupReg (Downloader.progress_hook (Downloader.progress_hook c6Reg
            c6PayA) c6PayB) ("n")).map JobRec.percent = some ("30.0%") ∧
      (lookupReg (Downloader.progress_hook (Downloader.progress_hook c6Reg
            c6PayA) c6PayB) ("n")).map JobRec.status = some ("downloading") ∧
      rheN (30 * 100 * 10) 100 < rheN (50 * 100 * 10) 100 := by
  refine ⟨rfl, rfl, rfl, by decide⟩

/-- C6 amended: percent is monotonic non-decreasing across successive
`downloading` updates provided the callbacks report the same positive
total and non-decreasing downloaded byte counts (which is what the
external tool's single writer normally emits); the hook itself applies no
clamping, so the stored percent is exactly the latest payload's fraction,
rendered to one decimal, and its displayed value `rheN (dl * 100 * 10) t`
tenths is then non-decreasing. -/
theorem c6_amended (reg : List (String × JobRec)) (id : String) (rec : JobRec)
    (p1 p2 : Payload) (t dl1 dl2 : Nat)
    (h1 : payloadId p1 = some id) (h2 : payloadId p2 = some id)
    (hrec : lookupReg reg id = some rec)
    (hs1 : p1.status = "downloading") (hs2 : p2.status = "downloading")
    (ht1 : computedTotal p1 = t) (ht2 : computedTotal p2 = t) (ht : 0 < t)
    (hd1 : p1.downloaded_bytes.getD 0 = dl1)
    (hd2 : p2.downloaded_bytes.getD 0 = dl2) (hmono : dl1 ≤ dl2) :
    lookupReg (Downloader.progress_hook reg p1) id
        = some (downloadingRec rec p1) ∧
      lookupReg (Downloader.progress_hook (Downloader.progress_hook reg p1) p2)
          id = some (downloadingRec (downloadingRec rec p1) p2) ∧
      (downloadingRec rec p1).status = "downloading" ∧
      (downloadingRec (downloadingRec rec p1) p2).status = "downloading" ∧
      (downloadingRec rec p1).percent = pyFormat1f (dl1 * 100) t ++ "%" ∧
      (downloadingRec (downloadingRec rec p1) p2).percent
        = pyFormat1f (dl2 * 100) t ++ "%" ∧
      rheN (dl1 * 100 * 10) t ≤ rheN (dl2 * 100 * 10) t := by
  have ht1' : 0 < computedTotal p1 := ht1 ▸ ht
  have ht2' : 0 < computedTotal p2 := ht2 ▸ ht
  have e1 : Downloader.progress_hook reg p1 = setReg reg id (downloadingRec rec p1) :=
    progress_hook_downloading reg id rec p1 h1 hrec hs1 ht1'
  have l1 : lookupReg (Downloader.progress_hook reg p1) id
      = some (downloadingRec rec p1) := by
    rw [e1]; exact lookupReg_setReg_self reg id _
  have e2 : Downloader.progress_hook (Downloader.progress_hook reg p1) p2
      = setReg (Downloader.progress_hook reg p1) id
          (downloadingRec (downloadingRec rec p1) p2) :=
    progress_hook_downloading _ id (downloadingRec rec p1) p2 h2 l1 hs2 ht2'
  have l2 : lookupReg (Downloader.progress_hook (Downloader.progress_hook reg
      p1) p2) id = some (downloadingRec (downloadingRec rec p1) p2) := by
    rw [e2]; exact lookupReg_setReg_self _ id _
  refine ⟨l1, l2, rfl, rfl, ?_, ?_, ?_⟩
  · simp [downloadingRec, hd1, ht1]
  · simp [downloadingRec, hd2, ht2]
  · exact rheN_mono _ _ t
      (Nat.mul_le_mul_right 10 (Nat.mul_le_mul_right 100 hmono))

/-- C6 witness: 30 of 100 bytes then 50 of 100 bytes — percent moves from
`"30.0%"` to `"50.0%"`, non-decreasing. -/
theorem c6_amended_witness :
    (lookupReg (Downloader.progress_hook c6WitReg c6WitPay1) ("m")
        = some (downloadingRec (startingRec ("en")) c6WitPay1) ∧
      lookupReg (Downloader.progress_hook (Downloader.progress_hook c6WitReg
            c6WitPay1) c6WitPay2) ("m")
        = some (downloadingRec (downloadingRec (startingRec ("en")) c6WitPay1)
            c6WitPay2) ∧
      (downloadingRec (startingRec ("en")) c6WitPay1).status = "downloading" ∧
      (downloadingRec (downloadingRec (startingRec ("en")) c6WitPay1)
          c6WitPay2).status = "downloading" ∧
      (downloadingRec (startingRec ("en")) c6WitPay1).percent
        = pyFormat1f (30 * 100) 100 ++ "%" ∧
      (downloadingRec (downloadingRec (startingRec ("en")) c6WitPay1)
          c6WitPay2).percent = pyFormat1f (50 * 100) 100 ++ "%" ∧
      rheN (30 * 100 * 10) 100 ≤ rheN (50 * 100 * 10) 100) ∧
      pyFormat1f (30 * 100) 100 ++ "%" = "30.0%" ∧
      pyFormat1f (50 * 100) 100 ++ "%" = "50.0%" :=
  ⟨c6_amended c6WitReg ("m") (startingRec ("en")) c6WitPay1 c6WitPay2 100 30 50
      rfl rfl rfl rfl rfl rfl rfl (by decide) rfl rfl (by decide),
    by decide, by decide⟩

set_option maxRecDepth 10000 in
/-- C8 counterexample.  The claim bounds the sanitizer's output length by
200 plus the length of the input's extension suffix (`os.path.splitext`'s
notion — the only one the program uses).  The code, however, applies
`splitext` to the character-replaced string, not to the input: for 200
`A`s followed by `.xyz/q`, the input's extension is empty (the last dot
precedes the last `/`), yet replacing `/` by `_` turns `.xyz_q` into an
extension, so the output keeps 206 characters — exceeding the claimed
bound of 200. -/
theorem c8_counterexample :
    (sanitize_filename c8Input).length = 206 ∧ (strExt c8Input).length = 0 ∧
      ¬ ((sanitize_filename c8Input).length ≤ 200 + (strExt c8Input).length) := by
  refine ⟨by decide, by decide, by decide⟩

/-- C8 amended: the sanitizer's output contains none of the characters
`/ \ : * ? " < > |`, and its length is at most 200 plus the length of the
extension suffix of the character-replaced input (equivalently, of the
input itself whenever the input contains no path separator, since the
character replacement preserves dot positions). -/
theorem c8_amended (s : String) :
    (illegalChars.all (fun c => !(sanitize_filename s).data.contains c)) = true ∧
      (sanitize_filename s).length ≤ 200 + (strExt (replaceIllegalStr s)).length := by
  constructor
  · rw [List.all_eq_true]
    intro c hc
    have h1 : c ∉ sanitizeChars s.data :=
      fun hm => not_mem_replaceIllegal c hc s.data (sanitizeChars_subset s.data c hm)
    simpa using h1
  · show (sanitizeChars s.data).length
      ≤ 200 + (pySplitext (replaceIllegal s.data)).2.length
    unfold sanitizeChars
    split_ifs with h
    · rw [List.length_append]
      have h2 : ((pySplitext (replaceIllegal s.data)).1.take 200).length ≤ 200 := by
        rw [List.length_take]
        exact min_le_left _ _
      omega
    · omega

/-- C9 counterexample.  The claim says `is_safe_filename` accepts exactly
the strings made of class characters with no traversal sequence.  The
implementation's regex ends in `$`, which Python (without `re.MULTILINE`)
also matches just before a single trailing newline: the string `"a\n"`
contains a character outside the class, yet the validator accepts it. -/
theorem c9_counterexample :
    is_safe_filename ("a\n") = true ∧ safeSpecClaim ("a\n" : String).data = false := by
  refine ⟨by decide, by decide⟩

/-- C9 amended: `is_safe_filename` returns true iff the string contains no
`..`, `/` or `\` and either the entire string is one or more characters of
the class `[A-Za-z0-9_.-]`, or it is such a nonempty class run followed by
one trailing newline (accepted because Python's `$` matches before a final
newline). -/
theorem c9_amended (s : String) : is_safe_filename s = safeSpecAmended s.data := by
  rw [is_safe_filename, safeSpecAmended]
  cases hdd : hasDotDot s.data with
  | true => simp [hdd]
  | false =>
    cases hsl : s.data.contains '/' with
    | true => simp [hdd, hsl]
    | false =>
      cases hbs : s.data.contains '\\' with
      | true => simp [hdd, hsl, hbs]
      | false => simp [hdd, hsl, hbs, reFullMatch_eq]

/-- C10: `is_safe_filename` rejects the empty string — the regex requires at
least one character, and the empty string matches no character class
repetition. -/
theorem c10_empty_rejected : is_safe_filename ("") = false := by decide

